import Mathlib

/-!
Verification of the rust-http-server repository: a shallow embedding of the
FastCGI codec (src/fastcgi/parser.rs, src/fastcgi/serializer.rs), the CGI
header parser (src/cgi/parser.rs), path normalization (src/filesystem.rs),
the prefix router (src/server/router.rs) composed with the request parser
(src/server/mod.rs), the FastCGI driver's request-id assignment
(src/fastcgi/driver.rs), and the chunked response writer with its
fresh/streaming discipline (src/server/mod.rs).

Conventions of the embedding:
* Byte strings are `List Nat` whose elements are byte values (< 256 on every
  input the theorems use).  Machine integers are `Nat` with explicit `% 2^w`
  where the source relies on wrap-around.
* The source builds on the `nom` parser combinator library (the 1.x series,
  judging from the `chain!`/`named!`/`Err::Position` API).  `IResult` mirrors
  nom's three-way result; the byte-count payload of `Incomplete` and the
  position slice inside errors are elided because nothing in the repository's
  observable behaviour that we verify depends on them.  Error kinds keep just
  enough structure to distinguish nom's built-in failures from the repository's
  custom `ParseError` codes (which `record` encodes through `ParseError.to_u32`
  exactly as the source does).
* Rust code that can panic (an out-of-range index) is embedded with an
  explicit `panic` result constructor rather than left partial.
-/

namespace HttpServer

/-! ## nom model (parser-combinator plumbing used by the source) -/

/-- Which nom combinator reported the failure; `custom` carries the `u32`
error code passed to `ErrorKind::Custom` by the source. -/
inductive ErrKind where
  | tagE
  | altE
  | crlfE
  | charE
  | digitE
  | many0E
  | custom (code : Nat)
  deriving DecidableEq, Repr

/-- nom's `IResult`, with `Incomplete`'s needed-byte payload elided. -/
inductive IResult (α : Type) where
  | done (rest : List Nat) (val : α)
  | err (e : ErrKind)
  | incomplete
  deriving DecidableEq, Repr

/-- Sequencing of parsers, mirroring the source's `try_parse!`:
errors and incompleteness propagate. -/
def IResult.bind (r : IResult α) (f : List Nat → α → IResult β) : IResult β :=
  match r with
  | .done rest v => f rest v
  | .err e => .err e
  | .incomplete => .incomplete

/-- nom's `be_u8`. -/
def be_u8 : List Nat → IResult Nat
  | [] => .incomplete
  | b :: rest => .done rest b

/-- nom's `be_u16`. -/
def be_u16 : List Nat → IResult Nat
  | b0 :: b1 :: rest => .done rest (b0 * 256 + b1)
  | _ => .incomplete

/-- nom's `be_u32`. -/
def be_u32 : List Nat → IResult Nat
  | b0 :: b1 :: b2 :: b3 :: rest =>
      .done rest (b0 * 16777216 + b1 * 65536 + b2 * 256 + b3)
  | _ => .incomplete

/-- nom's `take!(n)`. -/
def takeN (n : Nat) (input : List Nat) : IResult (List Nat) :=
  if input.length < n then .incomplete
  else .done (input.drop n) (input.take n)

/-- nom's `tag!`: mismatch within the available bytes is an error, a proper
prefix of the tag is incomplete. -/
def tagP (t : List Nat) (input : List Nat) : IResult (List Nat) :=
  if input.length < t.length then
    if input = t.take input.length then .incomplete else .err .tagE
  else if input.take t.length = t then .done (input.drop t.length) t
  else .err .tagE

/-- nom's `opt!`: converts an error of the inner parser into `none`. -/
def optP (p : List Nat → IResult α) (input : List Nat) : IResult (Option α) :=
  match p input with
  | .done rest v => .done rest (some v)
  | .err _ => .done input none
  | .incomplete => .incomplete

/-- nom's `alt!` with two branches. -/
def altP (p q : List Nat → IResult α) (input : List Nat) : IResult α :=
  match p input with
  | .done rest v => .done rest v
  | .incomplete => .incomplete
  | .err _ =>
    match q input with
    | .done rest v => .done rest v
    | .incomplete => .incomplete
    | .err _ => .err .altE

/-- nom's `crlf` (the two bytes `\r\n`). -/
def crlfP (input : List Nat) : IResult (List Nat) :=
  tagP [13, 10] input

/-- nom's `newline` (the byte `\n`). -/
def newlineP : List Nat → IResult (List Nat)
  | [] => .incomplete
  | b :: rest => if b = 10 then .done rest [10] else .err .charE

/-- nom's `take_till!`: consumes up to (not including) the first byte
satisfying the predicate, the whole input when none does. -/
def take_till (pred : Nat → Bool) (input : List Nat) : IResult (List Nat) :=
  let chunk := input.takeWhile (fun b => ! pred b)
  .done (input.drop chunk.length) chunk

/-- nom's `take_while!`. -/
def take_while (pred : Nat → Bool) (input : List Nat) : IResult (List Nat) :=
  let chunk := input.takeWhile pred
  .done (input.drop chunk.length) chunk

/-- nom 1.x `many0!`: empty input or a child error ends the loop with the
collected values; child incompleteness propagates; a child that consumes
nothing is the `Many0` error.  `fuel` bounds the iteration count; it is spent
one unit per child success, each of which consumes at least one byte, so
`input.length + 1` units never run out. -/
def many0Go (p : List Nat → IResult α) :
    Nat → List Nat → List α → IResult (List α)
  | 0, _, _ => .err .many0E
  | fuel + 1, input, acc =>
    if input.length = 0 then .done input acc.reverse
    else
      match p input with
      | .err _ => .done input acc.reverse
      | .incomplete => .incomplete
      | .done rest v =>
        if rest.length = input.length then .err .many0E
        else many0Go p fuel rest (v :: acc)

/-- nom's `many0!`. -/
def many0P (p : List Nat → IResult α) (input : List Nat) : IResult (List α) :=
  many0Go p (input.length + 1) input []

/-! ## FastCGI data model (src/fastcgi/mod.rs) -/

/-- `Role` from src/fastcgi/mod.rs. -/
inductive Role where
  | responder
  | authorizer
  | filter
  deriving DecidableEq, Repr

/-- `Role::to_protocol_number`. -/
def Role.to_protocol_number : Role → Nat
  | .responder => 1
  | .authorizer => 2
  | .filter => 3

/-- `NameValuePair` from src/fastcgi/mod.rs. -/
structure NameValuePair where
  name : List Nat
  value : List Nat
  deriving DecidableEq, Repr

/-- `BeginRequest` from src/fastcgi/mod.rs. -/
structure BeginRequestC where
  role : Role
  flags : Nat
  deriving DecidableEq, Repr

/-- `EndRequest` from src/fastcgi/mod.rs. -/
structure EndRequestC where
  app_status : Nat
  protocol_status : Nat
  deriving DecidableEq, Repr

/-- `Content` from src/fastcgi/mod.rs. -/
inductive Content where
  | getValues (ps : List NameValuePair)
  | getValuesResult (ps : List NameValuePair)
  | unknownType (kind : Nat)
  | beginRequest (b : BeginRequestC)
  | params (ps : List NameValuePair)
  | stdin (bs : List Nat)
  | data (bs : List Nat)
  | stdout (bs : List Nat)
  | stderr (bs : List Nat)
  | abortRequest
  | endRequest (e : EndRequestC)
  deriving DecidableEq, Repr

/-- `Record` from src/fastcgi/mod.rs. -/
structure Record where
  id : Nat
  content : Content
  deriving DecidableEq, Repr

/-- `ParseError` from src/fastcgi/parser.rs. -/
inductive ParseError where
  | unknownRole (tag : Nat)
  | unknownType (kind : Nat)
  deriving DecidableEq, Repr

/-- `ParseError::to_u32` from src/fastcgi/parser.rs. -/
def ParseError.to_u32 : ParseError → Nat
  | .unknownRole role => role ||| (1 <<< 17)
  | .unknownType kind => kind

/-! ## FastCGI record parser (src/fastcgi/parser.rs) -/

/-- `name_value_pair` from src/fastcgi/parser.rs.  Note the source's
asymmetry, reproduced here: when the name-length byte has its MSB set the
four-byte length is re-read from `input` (including that byte), but when the
value-length byte has its MSB set the four-byte length is read from `in3`
(after that byte). -/
def name_value_pair (input : List Nat) : IResult NameValuePair :=
  (be_u8 input).bind fun in1 initial_name_length =>
  (if initial_name_length >>> 7 = 1 then be_u32 input
   else .done in1 initial_name_length).bind fun in2 name_length =>
  (be_u8 in2).bind fun in3 initial_value_length =>
  (if initial_value_length >>> 7 = 1 then be_u32 in3
   else .done in3 initial_value_length).bind fun in4 value_length =>
  (takeN name_length in4).bind fun in5 name =>
  (takeN value_length in5).bind fun in6 value =>
  .done in6 { name := name, value := value }

/-- `name_value_pairs` from src/fastcgi/parser.rs. -/
def name_value_pairs (input : List Nat) : IResult (List NameValuePair) :=
  many0P name_value_pair input

/-- `role` from src/fastcgi/parser.rs. -/
def roleP (input : List Nat) : IResult Role :=
  (be_u16 input).bind fun in1 tag =>
  match tag with
  | 1 => .done in1 .responder
  | 2 => .done in1 .authorizer
  | 3 => .done in1 .filter
  | _ => .err (.custom (ParseError.to_u32 (.unknownRole tag)))

/-- `begin_request` from src/fastcgi/parser.rs. -/
def begin_request (input : List Nat) : IResult Content :=
  (roleP input).bind fun in1 role =>
  (be_u8 in1).bind fun in2 flags =>
  (takeN 5 in2).bind fun in3 _ =>
  .done in3 (.beginRequest { role := role, flags := flags })

/-- `abort_request` from src/fastcgi/parser.rs. -/
def abort_request (input : List Nat) : IResult Content :=
  .done input .abortRequest

/-- `end_request` from src/fastcgi/parser.rs. -/
def end_request (input : List Nat) : IResult Content :=
  (be_u32 input).bind fun in1 app_status =>
  (be_u8 in1).bind fun in2 protocol_status =>
  (takeN 3 in2).bind fun in3 _ =>
  .done in3 (.endRequest { app_status := app_status,
                           protocol_status := protocol_status })

/-- `get_values` from src/fastcgi/parser.rs. -/
def get_values (input : List Nat) : IResult Content :=
  (name_value_pairs input).bind fun rest ps => .done rest (.getValues ps)

/-- `get_values_result` from src/fastcgi/parser.rs.  Defined in the source
but never referenced by `record`. -/
def get_values_result (input : List Nat) : IResult Content :=
  (name_value_pairs input).bind fun rest ps => .done rest (.getValuesResult ps)

/-- `params` (content decoder) from src/fastcgi/parser.rs. -/
def params_content (input : List Nat) : IResult Content :=
  (name_value_pairs input).bind fun rest ps => .done rest (.params ps)

/-- `unknown_type` from src/fastcgi/parser.rs. -/
def unknown_type (input : List Nat) : IResult Content :=
  (be_u8 input).bind fun in1 kind =>
  (takeN 7 in1).bind fun in2 _ =>
  .done in2 (.unknownType kind)

/-- `record` from src/fastcgi/parser.rs.  The match on the type byte mirrors
the source's `record_kind` constants (1 = BeginRequest … 11 = UnknownType);
as in the source there is no arm for `GET_VALUES_RESULT` (10), so that type
byte falls through to the `UnknownType` error branch. -/
def record (input : List Nat) : IResult Record :=
  (be_u8 input).bind fun in1 _ =>
  (be_u8 in1).bind fun in2 kind =>
  (be_u16 in2).bind fun in3 id =>
  (be_u16 in3).bind fun in4 content_length =>
  (be_u8 in4).bind fun in5 padding_length =>
  (takeN 1 in5).bind fun in6 _ =>
  (takeN content_length in6).bind fun in7 content =>
  (takeN padding_length in7).bind fun in8 _ =>
  (match kind with
   | 1 => begin_request content
   | 2 => abort_request content
   | 3 => end_request content
   | 4 => params_content content
   | 5 => .done content (.stdin content)
   | 6 => .done content (.stdout content)
   | 7 => .done content (.stderr content)
   | 8 => .done content (.data content)
   | 9 => get_values content
   | 11 => unknown_type content
   | _ => .err (.custom (ParseError.to_u32 (.unknownType kind)))
  ).bind fun _ parsed_content =>
  .done in8 { id := id, content := parsed_content }

/-! ## FastCGI serializer (src/fastcgi/serializer.rs) -/

/-- The serialization error from src/errors.rs used by the serializer. -/
inductive SerializationError where
  | tooLong
  deriving DecidableEq, Repr

/-- Big-endian bytes of a `u32` value. -/
def beBytes32 (n : Nat) : List Nat :=
  [n / 16777216 % 256, n / 65536 % 256, n / 256 % 256, n % 256]

/-- Big-endian bytes of a `u16` value. -/
def beBytes16 (n : Nat) : List Nat :=
  [n / 256 % 256, n % 256]

/-- `write_header` from src/fastcgi/serializer.rs: the 8 header bytes plus
the promised padding length.  Content longer than `u16::MAX` is `TooLong`. -/
def write_header (kind id content_length : Nat) :
    Except SerializationError (List Nat × Nat) :=
  if content_length > 65535 then .error .tooLong
  else
    let padding_length :=
      if content_length % 8 = 0 then 0 else 8 - content_length % 8
    .ok ([1, kind] ++ beBytes16 id ++ beBytes16 content_length ++
          [padding_length, 0],
         padding_length)

/-- `name_length` from src/fastcgi/serializer.rs: on-the-wire size of one
name or value including its length prefix. -/
def name_length (val : List Nat) : Nat :=
  val.length + (if val.length > 127 then 4 else 1)

/-- `write_name_val_pair` from src/fastcgi/serializer.rs.  As in the source,
a length above 127 is written as its plain four-byte big-endian `u32`
(`length as u32`, no MSB manipulation) and only lengths above `u32::MAX`
report `TooLong`. -/
def write_name_val_pair (name val : List Nat) :
    Except SerializationError (List Nat) :=
  if name.length > 4294967295 ∨ val.length > 4294967295 then .error .tooLong
  else
    .ok ((if name.length > 127 then beBytes32 name.length
          else [name.length]) ++
         (if val.length > 127 then beBytes32 val.length
          else [val.length]) ++
         name ++ val)

/-- `start_request` from src/fastcgi/serializer.rs: a BeginRequest record for
the Responder role with the `KEEP_CONN` flag (1). -/
def start_request (id : Nat) : Except SerializationError (List Nat) := do
  let (header, padding_length) ← write_header 1 id 8
  pure (header ++ beBytes16 Role.responder.to_protocol_number ++ [1] ++
        [0, 0, 0, 0, 0] ++ List.replicate padding_length 0)

/-- `params` (serializer) from src/fastcgi/serializer.rs: one PARAMS record
holding every pair, followed by the empty sentinel PARAMS record. -/
def params_ser (id : Nat) (prs : List (List Nat × List Nat)) :
    Except SerializationError (List Nat) := do
  let content_length :=
    prs.foldl (fun acc p => acc + (name_length p.1 + name_length p.2)) 0
  let (header, padding_length) ← write_header 4 id content_length
  let body ← prs.foldlM (fun acc p => do
    let bytes ← write_name_val_pair p.1 p.2
    pure (acc ++ bytes)) ([] : List Nat)
  let (sentinel_header, sentinel_padding) ← write_header 4 id 0
  pure (header ++ body ++ List.replicate padding_length 0 ++
        sentinel_header ++ List.replicate sentinel_padding 0)

/-- `stdin` from src/fastcgi/serializer.rs: one STDIN record. -/
def stdin_ser (id : Nat) (content : List Nat) :
    Except SerializationError (List Nat) := do
  let (header, padding_length) ← write_header 5 id content.length
  pure (header ++ content ++ List.replicate padding_length 0)

/-! ## CGI header parser (src/cgi/parser.rs, data from src/cgi/mod.rs) -/

/-- `Header` from src/cgi/mod.rs. -/
structure CgiHeader where
  name : List Nat
  content : List Nat
  deriving DecidableEq, Repr

/-- `Status` from src/cgi/mod.rs. -/
structure CgiStatus where
  code : Nat
  reason_phrase : List Nat
  deriving DecidableEq, Repr

/-- `DocumentHeaders` from src/cgi/mod.rs. -/
structure DocumentHeaders where
  content_type : CgiHeader
  status : Option CgiStatus
  headers : List CgiHeader
  deriving DecidableEq, Repr

/-- `cr_or_lf` from src/cgi/parser.rs. -/
def cr_or_lf (x : Nat) : Bool :=
  x = 10 ∨ x = 13

/-- `lwsp` from src/cgi/parser.rs. -/
def lwsp (x : Nat) : Bool :=
  x = 32 ∨ x = 9 ∨ x = 10

/-- `is_colon` from src/cgi/parser.rs. -/
def is_colon (x : Nat) : Bool :=
  x = 58

/-- nom's `is_digit` as used by `verify_status_number`. -/
def isDigitByte (x : Nat) : Bool :=
  48 ≤ x ∧ x ≤ 57

/-- `code` from src/cgi/parser.rs: `flat_map!(take!(3), verify_status_number)`
followed by UTF-8 decoding and `u16` parsing of the three digits. -/
def codeP (input : List Nat) : IResult Nat :=
  (takeN 3 input).bind fun rest chunk =>
  if chunk.all isDigitByte then
    .done rest (chunk.foldl (fun acc d => acc * 10 + (d - 48)) 0)
  else .err .digitE

/-- `text` from src/cgi/parser.rs. -/
def textP (input : List Nat) : IResult (List Nat) :=
  take_till cr_or_lf input

/-- `status` from src/cgi/parser.rs; the ASCII of `"Status:"` is
`[83, 116, 97, 116, 117, 115, 58]`. -/
def statusP (input : List Nat) : IResult CgiStatus :=
  (tagP [83, 116, 97, 116, 117, 115, 58] input).bind fun in1 _ =>
  (optP (tagP [32]) in1).bind fun in2 _ =>
  (codeP in2).bind fun in3 code =>
  (tagP [32] in3).bind fun in4 _ =>
  (textP in4).bind fun in5 phrase =>
  .done in5 { code := code, reason_phrase := phrase }

/-- `header` from src/cgi/parser.rs. -/
def headerP (input : List Nat) : IResult CgiHeader :=
  (take_till is_colon input).bind fun in1 name =>
  (tagP [58] in1).bind fun in2 _ =>
  (take_while lwsp in2).bind fun in3 _ =>
  (take_till cr_or_lf in3).bind fun in4 content =>
  .done in4 { name := name, content := content }

/-- `double_newline` from src/cgi/parser.rs. -/
def double_newline (input : List Nat) : IResult Unit :=
  if input.length < 2 then .incomplete
  else if input.take 2 = [10, 10] then .done (input.drop 2) ()
  else if input.length < 3 then .incomplete
  else if input.take 3 = [13, 10, 10] then .done (input.drop 3) ()
  else if input.length < 4 then .incomplete
  else if input.take 4 = [13, 10, 13, 10] then .done (input.drop 4) ()
  else .err .crlfE

/-- The loop body of `headers` from src/cgi/parser.rs: parse one header,
stop when the blank-line terminator follows, otherwise consume one line
ending and continue.  `fuel` bounds the loop; every iteration consumes the
header's colon, so `input.length + 1` units never run out. -/
def headersGo : Nat → List Nat → List CgiHeader → IResult (List CgiHeader)
  | 0, _, _ => .incomplete
  | fuel + 1, next, acc =>
    (headerP next).bind fun nxt1 hdr =>
    match double_newline nxt1 with
    | .done nxt2 _ => .done nxt2 (acc ++ [hdr])
    | .incomplete => .incomplete
    | .err _ =>
      (altP crlfP newlineP nxt1).bind fun nxt2 _ =>
      headersGo fuel nxt2 (acc ++ [hdr])

/-- `headers` from src/cgi/parser.rs. -/
def headersF (input : List Nat) : IResult (List CgiHeader) :=
  headersGo (input.length + 1) input []

/-- `content_type` from src/cgi/parser.rs; the ASCII of `"Content-Type:"` is
`[67, 111, 110, 116, 101, 110, 116, 45, 84, 121, 112, 101, 58]`. -/
def content_typeP (input : List Nat) : IResult CgiHeader :=
  (tagP [67, 111, 110, 116, 101, 110, 116, 45, 84, 121, 112, 101, 58]
      input).bind fun in1 _ =>
  (optP (tagP [32]) in1).bind fun in2 _ =>
  (take_till cr_or_lf in2).bind fun in3 media =>
  .done in3 { name := [67, 111, 110, 116, 101, 110, 116, 45, 84, 121, 112,
                       101],
              content := media }

/-- `doc_headers` from src/cgi/parser.rs: note that the line ending after the
optional status line is demanded unconditionally, exactly as in the source's
`chain!`. -/
def doc_headers (input : List Nat) : IResult DocumentHeaders :=
  (optP statusP input).bind fun in1 stat =>
  (altP crlfP newlineP in1).bind fun in2 _ =>
  (content_typeP in2).bind fun in3 ctype =>
  (altP crlfP newlineP in3).bind fun in4 _ =>
  (headersF in4).bind fun in5 hdrs =>
  .done in5 { content_type := ctype, status := stat, headers := hdrs }

/-! ## Path normalization (src/filesystem.rs) -/

/-- The errors `normalize_path` can return (src/errors.rs), plus an explicit
`panicked` outcome embedding a Rust panic (an out-of-range slice index). -/
inductive NormalizeResult where
  | ok (out : List Nat)
  | errPathNotInOriginForm
  | errIllegalPercentEncoding
  | panicked
  deriving DecidableEq, Repr

/-- `is_hexit` from src/filesystem.rs. -/
def is_hexit (x : Nat) : Bool :=
  (48 ≤ x ∧ x ≤ 57) ∨ (65 ≤ x ∧ x ≤ 70) ∨ (97 ≤ x ∧ x ≤ 102)

/-- `from_hexit` from src/filesystem.rs.  The source panics on a non-hexit;
it is only ever called on bytes that passed `is_hexit`, and the embedding
returns 0 there. -/
def from_hexit (x : Nat) : Nat :=
  if 48 ≤ x ∧ x ≤ 57 then x - 48
  else if 65 ≤ x ∧ x ≤ 70 then x - 65 + 10
  else if 97 ≤ x ∧ x ≤ 102 then x - 97 + 10
  else 0

/-- The `while i < path.len() && path[i] == 0x2F` skip loops of
`normalize_path`: the first index at or after `i` whose byte is not `/`. -/
def skipSlashes (p : List Nat) (i : Nat) : Nat :=
  if h : i < p.length then
    if p.getD i 0 = 47 then skipSlashes p (i + 1) else i
  else i
termination_by p.length - i

/-- The skip loop never moves backwards. -/
theorem skipSlashes_ge (p : List Nat) (i : Nat) : i ≤ skipSlashes p i := by
  rw [skipSlashes]
  split
  · split
    · have := skipSlashes_ge p (i + 1)
      omega
    · omega
  · omega
termination_by p.length - i

/-- Entering the slash-run skip loop advances the index. -/
theorem skipSlashes_succ_le (p : List Nat) (i : Nat) (h : i < p.length)
    (hb : p.getD i 0 = 47) : i + 1 ≤ skipSlashes p i := by
  rw [skipSlashes]
  simp only [h, hb, dif_pos, if_pos]
  exact skipSlashes_ge p (i + 1)

/-- Prepend one output byte to the result of the rest of the loop. -/
def consOut (b : Nat) : NormalizeResult → NormalizeResult
  | .ok out => .ok (b :: out)
  | r => r

/-- The main `while i < path.len()` loop of `normalize_path`
(src/filesystem.rs).  The percent branch mirrors the source's off-by-one
bounds check: it requires `path.len() >= i + 2` but then indexes
`path[i + 2]`, so when `path.len() = i + 2` the read is out of range and the
function panics. -/
def normLoop (p : List Nat) (i : Nat) : NormalizeResult :=
  if h : i < p.length then
    if hb : p.getD i 0 = 47 then consOut 47 (normLoop p (skipSlashes p i))
    else if p.getD i 0 = 37 then
      if p.length < i + 2 then .errIllegalPercentEncoding
      else if p.length = i + 2 then .panicked
      else
        let high_nybble := p.getD (i + 1) 0
        let low_nybble := p.getD (i + 2) 0
        if is_hexit high_nybble ∧ is_hexit low_nybble then
          consOut (from_hexit high_nybble * 16 + from_hexit low_nybble)
            (normLoop p (i + 3))
        else .errIllegalPercentEncoding
    else consOut (p.getD i 0) (normLoop p (i + 1))
  else .ok []
termination_by p.length - i
decreasing_by
  · have := skipSlashes_succ_le p i h hb
    omega
  · omega
  · omega

/-- `normalize_path` from src/filesystem.rs.  On the empty input the source
underflows `path.len() - 1` and indexes `path[0]`, a panic either way. -/
def normalize_path (p : List Nat) : NormalizeResult :=
  match p with
  | [] => .panicked
  | b :: _ =>
    if b ≠ 47 then .errPathNotInOriginForm
    else normLoop p (skipSlashes p 1)

/-! ## Router (src/server/router.rs) composed with the request parser
(src/server/mod.rs)

`Router::serve_inner` matches `Path::new(req.request_uri())` against each
route's `PathBuf` with `Path::starts_with`, which compares path *components*.
The component model below follows Rust's `std::path::Path::components` for
Unix paths: a leading `/` is the `RootDir` component, empty components from
repeated separators vanish, and `.` components are dropped except a leading
one (`CurDir`) on a relative path.  Handlers are identified by numeric tags;
`HashMap<String, Box<Handler>>` becomes an association list. -/

/-- One component of a `std::path::Path`. -/
inductive PathComp where
  | rootDir
  | curDir
  | normal (bytes : List Nat)
  deriving DecidableEq, Repr

/-- Split a byte string at `/` (47). -/
def splitSlash (s : List Nat) : List (List Nat) :=
  match s with
  | [] => [[]]
  | b :: rest =>
    let parts := splitSlash rest
    if b = 47 then [] :: parts
    else
      match parts with
      | [] => [[b]]
      | p :: ps => (b :: p) :: ps

/-- `Path::components` for a Unix path given as bytes. -/
def pathComponents (s : List Nat) : List PathComp :=
  let hasRoot := s.head? = some 47
  let parts := (splitSlash s).filter (fun p => p ≠ [] ∧ p ≠ [46])
  if hasRoot then .rootDir :: parts.map .normal
  else
    match (splitSlash s).filter (fun p => p ≠ []) with
    | [46] :: _ => .curDir :: parts.map .normal
    | _ => parts.map .normal

/-- Component-wise prefix test, i.e. `Path::starts_with`. -/
def compPrefixOf : List PathComp → List PathComp → Bool
  | [], _ => true
  | _ :: _, [] => false
  | a :: as_, b :: bs => a = b && compPrefixOf as_ bs

/-- `MethodDispatch` from src/server/router.rs; handlers are tags, the
method map is an association list. -/
inductive MethodDispatch where
  | any (handler : Nat)
  | specific (map : List (List Nat × Nat))
  deriving DecidableEq, Repr

/-- `Route` from src/server/router.rs. -/
structure Route where
  path : List Nat
  handlers : MethodDispatch
  deriving DecidableEq, Repr

/-- What serving a request observably does: invoke a handler, or serve the
404 or 405 error page. -/
inductive ServeOutcome where
  | handled (handler : Nat)
  | error404
  | error405
  deriving DecidableEq, Repr

/-- Association-list lookup, standing in for `HashMap::get`. -/
def assocGet (map : List (List Nat × Nat)) (key : List Nat) : Option Nat :=
  match map with
  | [] => none
  | (k, v) :: rest => if k = key then some v else assocGet rest key

/-- Association-list insert, standing in for `HashMap::insert`. -/
def assocInsert (map : List (List Nat × Nat)) (key : List Nat) (v : Nat) :
    List (List Nat × Nat) :=
  match map with
  | [] => [(key, v)]
  | (k, v0) :: rest =>
    if k = key then (k, v) :: rest else (k, v0) :: assocInsert rest key v

/-- `Handler for MethodDispatch` from src/server/router.rs: `Any` always
invokes its handler; `Specific` looks the method up and serves the 405 page
on a miss. -/
def MethodDispatch.serveD (d : MethodDispatch) (method : List Nat) :
    ServeOutcome :=
  match d with
  | .any handler => .handled handler
  | .specific map =>
    match assocGet map method with
    | some handler => .handled handler
    | none => .error405

/-- `Router::serve_inner` from src/server/router.rs: first route whose path
is a component-wise prefix of the request path wins; no match serves 404. -/
def serve_inner (routes : List Route) (method request_path : List Nat) :
    ServeOutcome :=
  match routes with
  | [] => .error404
  | route :: rest =>
    if compPrefixOf (pathComponents route.path) (pathComponents request_path)
    then route.handlers.serveD method
    else serve_inner rest method request_path

/-- `Router::route_any` from src/server/router.rs. -/
def route_any (routes : List Route) (path : List Nat) (handler : Nat) :
    List Route :=
  routes ++ [{ path := path, handlers := .any handler }]

/-- `Router::route` from src/server/router.rs; the `Any`-collision panic of
the source cannot arise for the route sets used here, which never pair the
two registrations on one prefix. -/
def routeR (routes : List Route) (path : List Nat) (method : List Nat)
    (handler : Nat) : List Route :=
  match routes with
  | [] => [{ path := path, handlers := .specific [(method, handler)] }]
  | route :: rest =>
    if route.path = path then
      match route.handlers with
      | .specific map =>
        { path := route.path,
          handlers := .specific (assocInsert map method handler) } :: rest
      | .any h => { path := route.path, handlers := .any h } :: rest
    else route :: routeR rest path method handler

/-- The path a `Request` carries into routing: `InnerRequest::parse`
(src/server/mod.rs) stores `normalize_path(raw request-uri)` in the
request's `path` field, and `Request::request_uri` returns it verbatim. -/
def requestPathOf (raw : List Nat) : Option (List Nat) :=
  match normalize_path raw with
  | .ok p => some p
  | _ => none

/-! ## FastCGI driver request ids (src/fastcgi/driver.rs)

`Connection::serve_inner` begins with
`let request_number = self.request_id.load() + 1;`
`self.request_id.store(request_number & 0xFF);`
and then passes `request_number as u16` to every serializer call. -/

/-- The value stored back into the atomic counter: `request_number & 0xFF`. -/
def storedCounter (counter : Nat) : Nat :=
  (counter + 1) % 256

/-- The id that goes on the wire: `request_number as u16`, i.e. the
unmasked increment reduced as `u16`. -/
def wireRequestId (counter : Nat) : Nat :=
  (counter + 1) % 65536

/-- Counter contents after `n` requests, starting from the
`AtomicUsize::new(0)` of `Connection::establish`. -/
def counterAfter : Nat → Nat
  | 0 => 0
  | n + 1 => storedCounter (counterAfter n)

/-! ## Response writer and its fresh/streaming discipline (src/server/mod.rs)

`Response<Fresh>` / `Response<Streaming>` share one underlying struct; the
embedding keeps the socket writer as the list of bytes written so far, the
chunk buffer as a list plus its capacity, and models `Drop for Response`
(which keys on `buffer.capacity() > 0`) as the bytes the destructor emits.
Header iteration order of the source's `HashMap` is unspecified; the
association list fixes insertion order, which no theorem below depends on. -/

/-- ASCII lowercasing of one byte (`to_ascii_lowercase`). -/
def toLowerByte (b : Nat) : Nat :=
  if 65 ≤ b ∧ b ≤ 90 then b + 32 else b

/-- ASCII uppercasing of one byte (`to_ascii_uppercase`). -/
def toUpperByte (b : Nat) : Nat :=
  if 97 ≤ b ∧ b ≤ 122 then b - 32 else b

/-- The `after_hyphen` loop of `normalize_header_name`
(src/server/mod.rs). -/
def normalizeNameGo : List Nat → Bool → List Nat
  | [], _ => []
  | c :: rest, after_hyphen =>
    if c = 45 then c :: normalizeNameGo rest true
    else if after_hyphen then toUpperByte c :: normalizeNameGo rest false
    else c :: normalizeNameGo rest false

/-- `normalize_header_name` from src/server/mod.rs: lowercase everything,
then uppercase the first byte and every byte following a `-`. -/
def normalize_header_name (name : List Nat) : List Nat :=
  match name.map toLowerByte with
  | [] => []
  | c :: rest => toUpperByte c :: normalizeNameGo rest false

/-- `Headers::insert` from src/server/mod.rs: a vacant entry takes the
value, an occupied one appends `,` and the new value. -/
def headersInsert (hs : List (List Nat × List Nat)) (key value : List Nat) :
    List (List Nat × List Nat) :=
  match hs with
  | [] => [(key, value)]
  | (k, v) :: rest =>
    if k = key then (k, v ++ [44] ++ value) :: rest
    else (k, v) :: headersInsert rest key value

/-- The state of a `Response` (both type states). -/
structure HttpResponse where
  written : List Nat
  buffer : List Nat
  bufferCap : Nat
  statusCode : Nat
  statusReason : List Nat
  headers : List (List Nat × List Nat)
  deriving DecidableEq, Repr

/-- Hex digit byte for Rust's lowercase `{:x}` formatting. -/
def hexDigitByte (n : Nat) : Nat :=
  if n < 10 then 48 + n else 87 + n

/-- Digits of `n` in base 16, most significant first, empty for 0. -/
def hexBytesGo (n : Nat) : List Nat :=
  if n = 0 then []
  else hexBytesGo (n / 16) ++ [hexDigitByte (n % 16)]
decreasing_by exact Nat.div_lt_self (by omega) (by omega)

/-- Rust's `{:x}` rendering of a `usize`. -/
def hexBytes (n : Nat) : List Nat :=
  if n = 0 then [48] else hexBytesGo n

/-- Digits of `n` in base 10, most significant first, empty for 0. -/
def decBytesGo (n : Nat) : List Nat :=
  if n = 0 then []
  else decBytesGo (n / 10) ++ [48 + n % 10]
decreasing_by exact Nat.div_lt_self (by omega) (by omega)

/-- Rust's `{}` rendering of an unsigned integer. -/
def decBytes (n : Nat) : List Nat :=
  if n = 0 then [48] else decBytesGo n

/-- `write_chunk_raw` from src/server/mod.rs:
`"{len_hex}\r\n" ++ payload ++ "\r\n"`. -/
def write_chunk_raw (chunk_content : List Nat) : List Nat :=
  hexBytes chunk_content.length ++ [13, 10] ++ chunk_content ++ [13, 10]

/-- `Response::<Fresh>::new` (src/server/mod.rs): status `200 "Ok"`, empty
headers, `Vec::new()` buffer (capacity 0). -/
def HttpResponse.new : HttpResponse :=
  { written := [], buffer := [], bufferCap := 0, statusCode := 200,
    statusReason := [79, 107], headers := [] }

/-- `Response::set_status`. -/
def HttpResponse.set_status (r : HttpResponse) (code : Nat)
    (reason : List Nat) : HttpResponse :=
  { r with statusCode := code, statusReason := reason }

/-- Mutation through `Response::headers_mut` followed by
`Headers::insert`. -/
def HttpResponse.insertHeader (r : HttpResponse) (key value : List Nat) :
    HttpResponse :=
  { r with headers := headersInsert r.headers (normalize_header_name key)
                        value }

/-- `Response::write_headers`: the status line
`"HTTP/1.1 {code} {reason}\r\n"`, one `"{name}: {value}\r\n"` per header,
and the blank line. -/
def HttpResponse.write_headers (r : HttpResponse) : HttpResponse :=
  { r with written :=
      r.written ++
      ([72, 84, 84, 80, 47, 49, 46, 49, 32] ++ decBytes r.statusCode ++
        [32] ++ r.statusReason ++ [13, 10]) ++
      (r.headers.map (fun p => p.1 ++ [58, 32] ++ p.2 ++ [13, 10])).flatten ++
      [13, 10] }

/-- `Response::start` (src/server/mod.rs): force
`Transfer-Encoding: Chunked`, write status and headers, install the
4096-byte chunk buffer; the transmute to the `Streaming` marker is the
identity on the state. -/
def HttpResponse.start (r : HttpResponse) : HttpResponse :=
  let r1 := r.insertHeader
    [84, 114, 97, 110, 115, 102, 101, 114, 45, 69, 110, 99, 111, 100, 105,
     110, 103]
    [67, 104, 117, 110, 107, 101, 100]
  let r2 := r1.write_headers
  { r2 with buffer := [], bufferCap := 4096 }

/-- `Response::<Streaming>::write_chunk`: flush the buffer as one chunk,
doing nothing when it is empty. -/
def HttpResponse.write_chunk (r : HttpResponse) : HttpResponse :=
  if r.buffer.length = 0 then r
  else { r with written := r.written ++ write_chunk_raw r.buffer,
                buffer := [] }

/-- `Write::write for Response<Streaming>` (src/server/mod.rs). -/
def HttpResponse.writeS (r : HttpResponse) (buf : List Nat) : HttpResponse :=
  if buf.length = 0 then r
  else
    let buffer_cap_remaining := r.bufferCap - r.buffer.length
    if buf.length > buffer_cap_remaining then
      if buf.length > r.bufferCap then
        let r1 := r.write_chunk
        { r1 with written := r1.written ++ write_chunk_raw buf }
      else
        let r1 := { r with buffer :=
          r.buffer ++ buf.take buffer_cap_remaining }
        let r2 := r1.write_chunk
        { r2 with buffer := buf.drop buffer_cap_remaining }
    else { r with buffer := r.buffer ++ buf }

/-- `Write::flush for Response<Streaming>`. -/
def HttpResponse.flushS (r : HttpResponse) : HttpResponse :=
  if r.buffer.length > 0 then r.write_chunk else r

/-- The bytes `Drop for Response` emits (src/server/mod.rs): nothing when
the buffer's capacity is 0, otherwise one raw chunk from the buffer followed
by the last-chunk marker `"0\r\n"`. -/
def dropBytes (r : HttpResponse) : List Nat :=
  if r.bufferCap > 0 then write_chunk_raw r.buffer ++ [48, 13, 10] else []

/-- The `Response<Fresh>` states a handler can reach: `new` followed by any
sequence of status and header mutations. -/
inductive FreshReachable : HttpResponse → Prop
  | new : FreshReachable HttpResponse.new
  | set_status (r : HttpResponse) (code : Nat) (reason : List Nat) :
      FreshReachable r → FreshReachable (r.set_status code reason)
  | insertHeader (r : HttpResponse) (key value : List Nat) :
      FreshReachable r → FreshReachable (r.insertHeader key value)

/-- The `Response<Streaming>` states: `start` on a fresh response followed
by any sequence of writes and flushes. -/
inductive StreamingReachable : HttpResponse → Prop
  | start (r : HttpResponse) :
      FreshReachable r → StreamingReachable r.start
  | writeS (r : HttpResponse) (buf : List Nat) :
      StreamingReachable r → StreamingReachable (r.writeS buf)
  | flushS (r : HttpResponse) :
      StreamingReachable r → StreamingReachable r.flushS

/-! ## Helper lemmas -/

/-- Where the skip loop stops, the byte is not `/` (when in range). -/
theorem skipSlashes_stop (p : List Nat) (i : Nat)
    (h : skipSlashes p i < p.length) :
    p.getD (skipSlashes p i) 0 ≠ 47 := by
  rw [skipSlashes] at h ⊢
  by_cases hi : i < p.length
  · rw [dif_pos hi] at h ⊢
    by_cases hb : p.getD i 0 = 47
    · rw [if_pos hb] at h ⊢
      exact skipSlashes_stop p (i + 1) h
    · rw [if_neg hb]
      exact hb
  · rw [dif_neg hi] at h
    exact absurd h hi
termination_by p.length - i

/-- Inversion for `consOut` producing a successful result. -/
theorem consOut_ok (b : Nat) (r : NormalizeResult) (l : List Nat)
    (h : consOut b r = .ok l) :
    ∃ t, r = .ok t ∧ l = b :: t := by
  cases r with
  | ok out =>
    refine ⟨out, rfl, ?_⟩
    simpa [consOut] using h.symm
  | errPathNotInOriginForm => simp [consOut] at h
  | errIllegalPercentEncoding => simp [consOut] at h
  | panicked => simp [consOut] at h

/-- `write_chunk` leaves the buffer capacity alone. -/
theorem write_chunk_bufferCap (r : HttpResponse) :
    r.write_chunk.bufferCap = r.bufferCap := by
  unfold HttpResponse.write_chunk
  split <;> rfl

/-- `writeS` leaves the buffer capacity alone. -/
theorem writeS_bufferCap (r : HttpResponse) (buf : List Nat) :
    (r.writeS buf).bufferCap = r.bufferCap := by
  unfold HttpResponse.writeS HttpResponse.write_chunk
  dsimp only
  split_ifs <;> rfl

/-- `flushS` leaves the buffer capacity alone. -/
theorem flushS_bufferCap (r : HttpResponse) :
    r.flushS.bufferCap = r.bufferCap := by
  unfold HttpResponse.flushS
  split
  · exact write_chunk_bufferCap r
  · rfl

/-- Every reachable fresh response has a zero-capacity buffer and has
written nothing. -/
theorem freshReachable_inv (r : HttpResponse) (h : FreshReachable r) :
    r.bufferCap = 0 ∧ r.written = [] := by
  induction h with
  | new => exact ⟨rfl, rfl⟩
  | set_status r code reason _ ih =>
    simpa [HttpResponse.set_status] using ih
  | insertHeader r key value _ ih =>
    simpa [HttpResponse.insertHeader] using ih

/-- Every reachable streaming response has the 4096-byte buffer installed
by `start`. -/
theorem streamingReachable_cap (r : HttpResponse)
    (h : StreamingReachable r) : r.bufferCap = 4096 := by
  induction h with
  | start r _ => rfl
  | writeS r buf _ ih => rw [writeS_bufferCap]; exact ih
  | flushS r _ ih => rw [flushS_bufferCap]; exact ih

/-! ## Claim theorems -/

set_option maxRecDepth 8192 in
/-- C1: the serializer/parser round trip fails inside the claimed domain.
Serializing the Params record for the single pair (name `"a"`, a 128-byte
value) succeeds — its content length is 134 ≤ 65,535 and both lengths are
≤ 2^31−1 — but `record` applied to the serialized bytes is `incomplete`
rather than the original record: the serializer wrote the 128 as a plain
four-byte big-endian length whose first byte has its MSB clear, so the
parser reads that byte as a one-byte length of 0 and then misreads value
bytes as a huge length field. -/
theorem c1_roundtrip_fails_on_long_value :
    Except.map record (params_ser 1 [([97], List.replicate 128 97)]) =
      Except.ok IResult.incomplete := by
  rfl

set_option maxRecDepth 8192 in
/-- C2: evaluating `write_name_val_pair` on the pair (name `"a"`, a
200-byte value) from the spec's own scenario.  The first five output bytes
are the one-byte name length 1 followed by the four value-length bytes
`[0, 0, 0, 200]` — the first of which is 0, with its most significant bit
clear, where the claim requires the MSB set. -/
theorem c2_long_length_encoded_without_msb :
    Except.map (List.take 5)
      (write_name_val_pair [97] (List.replicate 200 97)) =
      Except.ok [1, 0, 0, 0, 200] := by
  rfl

/-- C3: with the routes `[("/static", GET→0), ("/", Any→1)]` built through
`route`/`route_any`, a `POST` request for `/static/x` is served the 404
page, not the 405 page: `InnerRequest::parse` stores the normalized path
`"static/x"` (leading slash stripped), and a relative path is never a
component-wise extension of the absolute prefixes `"/static"` or `"/"`, so
no route matches.  Routing the same method on the un-normalized path
`"/static/x"` would reach the `/static` route's method map and serve 405. -/
theorem c3_post_static_serves_404_not_405 :
    requestPathOf [47, 115, 116, 97, 116, 105, 99, 47, 120] =
      some [115, 116, 97, 116, 105, 99, 47, 120] ∧
    serve_inner
      (route_any (routeR [] [47, 115, 116, 97, 116, 105, 99]
        [71, 69, 84] 0) [47] 1)
      [80, 79, 83, 84] [115, 116, 97, 116, 105, 99, 47, 120] =
      .error404 ∧
    serve_inner
      (route_any (routeR [] [47, 115, 116, 97, 116, 105, 99]
        [71, 69, 84] 0) [47] 1)
      [80, 79, 83, 84] [47, 115, 116, 97, 116, 105, 99, 47, 120] =
      .error405 := by
  refine ⟨?_, rfl, rfl⟩
  simp [requestPathOf, normalize_path, normLoop, skipSlashes, consOut,
    is_hexit, from_hexit]

/-- C4: `normalize_path` is not total on inputs whose `%` has exactly one
byte after it: on `"/%4"` the bounds check `path.len() >= i + 2` passes and
the read of `path[i + 2]` is out of range, a panic — where the claim
requires the `IllegalPercentEncoding` error.  (With no byte after the `%`,
as in `"/%"`, the check fails first and the error is returned.) -/
theorem c4_trailing_percent_digit_panics :
    normalize_path [47, 37, 52] = .panicked ∧
    normalize_path [47, 37] = .errIllegalPercentEncoding := by
  constructor <;>
    simp [normalize_path, normLoop, skipSlashes, consOut, is_hexit,
      from_hexit]

/-- C5 counterexample: for s = `"%2Ffoo"`, `normalize_path ("/" ++ s)`
succeeds with output `"/foo"`, whose first byte is `/` — the decoded
`%2F` lands at the head of the output. -/
theorem c5_counterexample_percent_encoded_slash :
    normalize_path [47, 37, 50, 70, 102, 111, 111] =
      .ok [47, 102, 111, 111] ∧
    [47, 102, 111, 111].head? = some 47 := by
  refine ⟨?_, rfl⟩
  simp [normalize_path, normLoop, skipSlashes, consOut, is_hexit,
    from_hexit]

/-- C5 (amended): whenever `normalize_path ("/" ++ s)` succeeds with an
output beginning with `/`, that leading byte came from a percent escape:
at the first non-slash index of the input there is a `%` followed by two
hex digits whose value is 0x2F.  Equivalently, the output never begins
with `/` unless the input's first significant byte starts an escape
decoding to `/`. -/
theorem c5_no_leading_slash_unless_encoded (s out : List Nat)
    (hok : normalize_path (47 :: s) = .ok out)
    (hhead : out.head? = some 47) :
    (47 :: s).getD (skipSlashes (47 :: s) 1) 0 = 37 ∧
    is_hexit ((47 :: s).getD (skipSlashes (47 :: s) 1 + 1) 0) = true ∧
    is_hexit ((47 :: s).getD (skipSlashes (47 :: s) 1 + 2) 0) = true ∧
    from_hexit ((47 :: s).getD (skipSlashes (47 :: s) 1 + 1) 0) * 16 +
      from_hexit ((47 :: s).getD (skipSlashes (47 :: s) 1 + 2) 0) = 47 := by
  have hok' : normLoop (47 :: s) (skipSlashes (47 :: s) 1) = .ok out := by
    simpa [normalize_path] using hok
  set p := 47 :: s with hp
  set j := skipSlashes p 1 with hj
  rw [normLoop] at hok'
  by_cases hi : j < p.length
  · rw [dif_pos hi] at hok'
    have hnot47 : p.getD j 0 ≠ 47 := skipSlashes_stop p 1 hi
    rw [dif_neg hnot47] at hok'
    by_cases h37 : p.getD j 0 = 37
    · rw [if_pos h37] at hok'
      refine ⟨h37, ?_⟩
      by_cases hlen2 : p.length < j + 2
      · rw [if_pos hlen2] at hok'
        exact absurd hok' (by simp)
      · rw [if_neg hlen2] at hok'
        by_cases hlen3 : p.length = j + 2
        · rw [if_pos hlen3] at hok'
          exact absurd hok' (by simp)
        · rw [if_neg hlen3] at hok'
          dsimp only at hok'
          by_cases hhex : is_hexit (p.getD (j + 1) 0) = true ∧
              is_hexit (p.getD (j + 2) 0) = true
          · rw [if_pos hhex] at hok'
            obtain ⟨t, _, hcons⟩ := consOut_ok _ _ _ hok'
            have hd : (from_hexit (p.getD (j + 1) 0) * 16 +
                from_hexit (p.getD (j + 2) 0)) = 47 := by
              rw [hcons] at hhead
              simpa using hhead
            exact ⟨hhex.1, hhex.2, hd⟩
          · rw [if_neg hhex] at hok'
            exact absurd hok' (by simp)
    · rw [if_neg h37] at hok'
      obtain ⟨t, _, hcons⟩ := consOut_ok _ _ _ hok'
      rw [hcons] at hhead
      exact absurd (by simpa using hhead) hnot47
  · rw [dif_neg hi] at hok'
    have : out = [] := by
      have := hok'
      simp only [NormalizeResult.ok.injEq] at this
      exact this.symm
    rw [this] at hhead
    exact absurd hhead (by simp)

/-- C5 witness: the amended statement applied at s = `"%2Ffoo"`. -/
theorem c5_no_leading_slash_unless_encoded_witness :
    (47 :: [37, 50, 70, 102, 111, 111]).getD
        (skipSlashes (47 :: [37, 50, 70, 102, 111, 111]) 1) 0 = 37 ∧
    is_hexit ((47 :: [37, 50, 70, 102, 111, 111]).getD
        (skipSlashes (47 :: [37, 50, 70, 102, 111, 111]) 1 + 1) 0) = true ∧
    is_hexit ((47 :: [37, 50, 70, 102, 111, 111]).getD
        (skipSlashes (47 :: [37, 50, 70, 102, 111, 111]) 1 + 2) 0) = true ∧
    from_hexit ((47 :: [37, 50, 70, 102, 111, 111]).getD
        (skipSlashes (47 :: [37, 50, 70, 102, 111, 111]) 1 + 1) 0) * 16 +
      from_hexit ((47 :: [37, 50, 70, 102, 111, 111]).getD
        (skipSlashes (47 :: [37, 50, 70, 102, 111, 111]) 1 + 2) 0) = 47 :=
  c5_no_leading_slash_unless_encoded [37, 50, 70, 102, 111, 111]
    [47, 102, 111, 111]
    (by simp [normalize_path, normLoop, skipSlashes, consOut, is_hexit,
      from_hexit])
    (by rfl)

/-- C6: a well-formed record with type byte 10 (`GET_VALUES_RESULT`) and
empty content does not parse to a `GetValuesResult`; it is rejected with
the `UnknownType(10)` custom error, because `record`'s dispatch has no arm
for type 10.  The content decoder `get_values_result` exists and accepts
that content — it is simply never called. -/
theorem c6_type_10_rejected_as_unknown :
    record [1, 10, 0, 1, 0, 0, 0, 0] =
      .err (.custom (ParseError.to_u32 (.unknownType 10))) ∧
    get_values_result [] = .done [] (.getValuesResult []) := by
  exact ⟨rfl, rfl⟩

set_option maxRecDepth 8192 in
/-- C7: the document-header block `"Content-Type: text/html\n\n"` — the
grammar's `[status_line EOL] content_type EOL header* EOL` with the status
line absent and zero headers — does not parse: `doc_headers` demands a line
ending between the (absent) status line and `Content-Type:`, so the parse
fails with the `Alt` error instead of producing `DocumentHeaders` with no
status. -/
theorem c7_no_status_line_fails_to_parse :
    doc_headers [67, 111, 110, 116, 101, 110, 116, 45, 84, 121, 112, 101,
      58, 32, 116, 101, 120, 116, 47, 104, 116, 109, 108, 10, 10] =
      .err .altE := by
  rfl

set_option maxRecDepth 8192 in
/-- C8 counterexample: after 255 requests the stored counter is 255, and
the next request's wire id is 256 — not `(255 + 1) % 256 = 0`, and not
strictly less than 256. -/
theorem c8_counterexample_wire_id_256 :
    wireRequestId (counterAfter 255) = 256 ∧
    ¬ wireRequestId (counterAfter 255) < 256 ∧
    wireRequestId (counterAfter 255) ≠ (counterAfter 255 + 1) % 256 := by
  decide

/-- C8 (amended): only the value stored back into the counter is reduced
modulo 256; the id sent on the wire is the unmasked increment.  Hence wire
ids always lie in 1..256 inclusive — the request after one with id 255 uses
id 256, and the one after that id 1 — and the stored counter equals the
wire id reduced modulo 256. -/
theorem c8_wire_id_bounds (n : Nat) :
    counterAfter n < 256 ∧
    1 ≤ wireRequestId (counterAfter n) ∧
    wireRequestId (counterAfter n) ≤ 256 ∧
    storedCounter (counterAfter n) = wireRequestId (counterAfter n) % 256 := by
  have h : counterAfter n < 256 := by
    induction n with
    | zero => simp [counterAfter]
    | succ k ih =>
      simp only [counterAfter, storedCounter]
      omega
  refine ⟨h, ?_, ?_, ?_⟩ <;>
    simp only [wireRequestId, storedCounter] <;> omega

/-- C9: a reachable `Fresh` response dropped without a body emits nothing
from its destructor (and nothing at all was ever written, the headers
included), while a reachable `Streaming` response dropped emits exactly one
raw chunk holding the remaining buffer followed by the last-chunk marker —
in particular `"0\r\n"` (bytes `[48, 13, 10]`) is a suffix of what the
destructor writes. -/
theorem c9_drop_discipline :
    (∀ r : HttpResponse, FreshReachable r →
      dropBytes r = [] ∧ r.written = []) ∧
    (∀ r : HttpResponse, StreamingReachable r →
      dropBytes r = write_chunk_raw r.buffer ++ [48, 13, 10] ∧
      List.IsSuffix [48, 13, 10] (dropBytes r)) := by
  constructor
  · intro r h
    obtain ⟨hcap, hw⟩ := freshReachable_inv r h
    refine ⟨?_, hw⟩
    simp [dropBytes, hcap]
  · intro r h
    have hcap := streamingReachable_cap r h
    have hdrop : dropBytes r = write_chunk_raw r.buffer ++ [48, 13, 10] := by
      simp [dropBytes, hcap]
    exact ⟨hdrop, by rw [hdrop]; exact ⟨write_chunk_raw r.buffer, rfl⟩⟩

/-- C9 witness: the drop behaviour at the concrete states reached by `new`
and by `new` followed by `start`. -/
theorem c9_drop_discipline_witness :
    dropBytes HttpResponse.new = [] ∧
    List.IsSuffix [48, 13, 10]
      (dropBytes (HttpResponse.start HttpResponse.new)) :=
  ⟨(c9_drop_discipline.1 HttpResponse.new FreshReachable.new).1,
   (c9_drop_discipline.2 (HttpResponse.start HttpResponse.new)
     (StreamingReachable.start HttpResponse.new FreshReachable.new)).2⟩

/-- C10: the record parser consumes the protocol-version byte without
inspecting it: for any two version bytes and any remaining input, `record`
returns identical results. -/
theorem c10_version_byte_ignored (v1 v2 : Nat) (rest : List Nat) :
    record (v1 :: rest) = record (v2 :: rest) := by
  rfl

end HttpServer
